import Mathlib

/-!
Verification of the core buffering, state-machine and orchestration logic of the
feeder-node library against its natural-language specification.

Samples are modelled as integers (the code only moves sample values around and
zero-fills; it never computes with them, so any value type with a zero is an
exact model of the Float32 payload).  Sample counts are natural numbers.
JavaScript numbers that take part in thresholds, validation bounds and the
buffer-health quotient are modelled as rationals, with an extended type `ExtQ`
capturing NaN and the infinities produced by division by zero.

Embedded source files:
  - src/audio-queue.js               (AudioQueue, the fifo_queue buffer)
  - src/script-processor-backend.js  (ScriptProcessorBackend)
  - src/feeder-node.js               (FeederNode and WorkletProcessor)
  - src/audio-worklet-backend.js     (AudioWorkletBackend)
  - src/index.js                     (validate / createNode)
  - src/abstract-backend.js          (BackendState, BufferType)
-/

/-- States of a playback backend, from src/abstract-backend.js (`BackendState`). -/
inductive BackendState
  | uninitialized
  | ready
  | playing
  | starved
deriving DecidableEq, Repr

/-- Buffer strategies, from src/abstract-backend.js (`BufferType`). -/
inductive BufferType
  | ring_buffer
  | fifo_queue
deriving DecidableEq, Repr

/-- Channel `c` of an interleaved chunk: the samples `chunk[i * nCh + c]` for
`i < chunk.length / nCh`.  This is the deinterleaving performed by the copy
loop in `AudioQueue.read` (src/audio-queue.js lines 67-71). -/
def chunkChannel (nCh c : Nat) (chunk : List Int) : List Int :=
  (List.range (chunk.length / nCh)).map (fun i => chunk.getD (i * nCh + c) 0)

/-- Sum of the per-channel lengths of the queued chunks; the quantity that
`_samplesInQueue` tracks incrementally in src/audio-queue.js. -/
def totalSamples (nCh : Nat) (queue : List (List Int)) : Nat :=
  (queue.map (fun ch => ch.length / nCh)).sum

/-- The per-channel data delivered by the read loop of `AudioQueue.read`
(src/audio-queue.js lines 59-82) for channel `c`, given the chunk queue and the
budget `readableSamples` still to read.  Each iteration copies
`min(samplesInChunk, budget)` samples from the head chunk; a fully consumed
chunk is shifted and the loop continues with the remaining budget. -/
def readChannel (nCh c : Nat) : List (List Int) → Nat → List Int
  | [], _ => []
  | chunk :: rest, budget =>
    if budget = 0 then []
    else
      let samplesInChunk := chunk.length / nCh
      let k := min samplesInChunk budget
      ((List.range k).map fun i => chunk.getD (i * nCh + c) 0) ++
        (if k = samplesInChunk then readChannel nCh c rest (budget - k) else [])

/-- The chunk queue left behind by the read loop of `AudioQueue.read`
(src/audio-queue.js lines 61-82): fully consumed chunks are shifted, a
partially consumed head chunk is replaced by `chunk.slice(k * nCh)`. -/
def remainingQueue (nCh : Nat) : List (List Int) → Nat → List (List Int)
  | [], _ => []
  | chunk :: rest, budget =>
    if budget = 0 then chunk :: rest
    else
      let samplesInChunk := chunk.length / nCh
      let k := min samplesInChunk budget
      if k = samplesInChunk then remainingQueue nCh rest (budget - k)
      else chunk.drop (k * nCh) :: rest

/-- The final value of `samplesRead` accumulated by the read loop of
`AudioQueue.read` (src/audio-queue.js line 81), used for the
`_samplesInQueue -= samplesRead` update on line 84. -/
def samplesReadCount (nCh : Nat) : List (List Int) → Nat → Nat
  | [], _ => 0
  | chunk :: rest, budget =>
    if budget = 0 then 0
    else
      let samplesInChunk := chunk.length / nCh
      let k := min samplesInChunk budget
      k + (if k = samplesInChunk then samplesReadCount nCh rest (budget - k) else 0)

/-- A JavaScript typed array of length `ch.length` that was first zero-filled
and then overwritten at the front with `data` (out-of-range writes into a
Float32Array are dropped).  Models the supplied-output-array path of
`AudioQueue.read` (src/audio-queue.js lines 53-57 and 67-71). -/
def overwriteFront (ch data : List Int) : List Int :=
  data.take ch.length ++ List.replicate (ch.length - data.length) 0

/-- The fifo_queue buffer of src/audio-queue.js (`class AudioQueue`).
`queue` is `_queue`, `nChannels` is `_nChannels`, `initialCapacity` is the
stored-but-unused `_initialCapacity`, `samplesInQueue` is `_samplesInQueue`. -/
structure AudioQueue where
  queue : List (List Int)
  nChannels : Nat
  initialCapacity : Nat
  samplesInQueue : Nat
deriving DecidableEq, Repr

/-- The `AudioQueue` constructor (src/audio-queue.js lines 8-16) on arguments
that pass its two guards. -/
def AudioQueue.new (initialCapacity nChannels : Nat) : AudioQueue :=
  { queue := [], nChannels := nChannels, initialCapacity := initialCapacity,
    samplesInQueue := 0 }

/-- Getter `bufferLength` (src/audio-queue.js lines 18-20). -/
def AudioQueue.bufferLength (q : AudioQueue) : Nat :=
  q.samplesInQueue

/-- `getNReadableSamples` (src/audio-queue.js lines 27-29). -/
def AudioQueue.getNReadableSamples (q : AudioQueue) : Nat :=
  q.samplesInQueue

/-- `AudioQueue.read` (src/audio-queue.js lines 38-87).  Returns the queue
after the read together with the contents of the returned per-channel arrays.
With `channels = none` (implicit allocation) the code allocates
`Float32Array(nSamples)` per channel — zero-initialized, written at indices
`0 .. samplesRead-1` — except that when nothing is readable it returns
`nChannels` empty arrays.  With supplied `channels` it zero-fills them and
overwrites their fronts with the read data; when nothing is readable it only
runs `ch.fill(0, 0, nSamples)` on each. -/
def AudioQueue.read (q : AudioQueue) (nSamples : Nat)
    (channels : Option (List (List Int))) : AudioQueue × List (List Int) :=
  let readableSamples := min nSamples q.getNReadableSamples
  if readableSamples = 0 then
    (q,
      match channels with
      | none => (List.range q.nChannels).map (fun _ => ([] : List Int))
      | some chs =>
          chs.map (fun ch =>
            List.replicate (min ch.length nSamples) (0 : Int) ++ ch.drop nSamples))
  else
    let r := samplesReadCount q.nChannels q.queue readableSamples
    let out :=
      match channels with
      | none =>
          (List.range q.nChannels).map (fun c =>
            readChannel q.nChannels c q.queue readableSamples ++
              List.replicate (nSamples - r) (0 : Int))
      | some chs =>
          (List.range chs.length).map (fun j =>
            overwriteFront (chs.getD j [])
              (if j < q.nChannels then readChannel q.nChannels j q.queue readableSamples
               else []))
    ({ q with queue := remainingQueue q.nChannels q.queue readableSamples,
              samplesInQueue := q.samplesInQueue - r }, out)

/-- `AudioQueue.write` (src/audio-queue.js lines 95-107): pushes a copy of the
chunk and returns `[false, samplesInQueue]`. -/
def AudioQueue.write (q : AudioQueue) (float32Data : List Int) :
    AudioQueue × Bool × Nat :=
  let samplesInQueue := q.samplesInQueue + float32Data.length / q.nChannels
  ({ q with queue := q.queue ++ [float32Data], samplesInQueue := samplesInQueue },
   false, samplesInQueue)

/-- `AudioQueue.clear` (src/audio-queue.js lines 112-115). -/
def AudioQueue.clear (q : AudioQueue) : AudioQueue :=
  { q with queue := [], samplesInQueue := 0 }

/-- Well-formedness invariant maintained by the `AudioQueue` code on
interleaved input: at least one channel (constructor guard), every queued chunk
holds whole frames, and the `_samplesInQueue` counter equals the per-channel
sample total of the queued chunks. -/
def AudioQueue.WF (q : AudioQueue) : Prop :=
  1 ≤ q.nChannels ∧ (∀ ch ∈ q.queue, q.nChannels ∣ ch.length) ∧
    q.samplesInQueue = totalSamples q.nChannels q.queue

instance (q : AudioQueue) : Decidable q.WF := by
  unfold AudioQueue.WF; infer_instance

/-- The logical content of the queue on channel `c`: the deinterleaved
concatenation, in arrival order, of the queued chunks. -/
def AudioQueue.content (q : AudioQueue) (c : Nat) : List Int :=
  (q.queue.map (chunkChannel q.nChannels c)).flatten

/-- Modelled from the spec: `writeSilence` lives in src/util.js, which is not
included in the repository snapshot; spec 4.4 requires that outside `Playing`
the adapter "fill `output` with zeroed frames". -/
def writeSilence (outs : List (List Int)) : List (List Int) :=
  outs.map (fun ch => List.replicate ch.length (0 : Int))

/-- `ScriptProcessorBackend` (src/script-processor-backend.js), specialised to
the `fifo_queue` buffer variant, whose constructor builds
`new AudioQueue(bufferLength, nChannels)`. -/
structure SPBackend where
  nChannels : Nat
  batchSize : Nat
  bufferThreshold : ℚ
  state : BackendState
  buffer : AudioQueue
deriving DecidableEq, Repr

/-- The `ScriptProcessorBackend` constructor (src/script-processor-backend.js
lines 20-38) with `bufferType = fifo_queue`. -/
def SPBackend.new (nChannels batchSize bufferLength : Nat)
    (bufferThreshold : ℚ) : SPBackend :=
  { nChannels := nChannels, batchSize := batchSize,
    bufferThreshold := bufferThreshold, state := .ready,
    buffer := AudioQueue.new bufferLength nChannels }

/-- Getter `bufferLength` (src/script-processor-backend.js lines 41-43):
delegates to the buffer, which for the fifo_queue variant reports its current
readable sample count. -/
def SPBackend.bufferLength (b : SPBackend) : Nat :=
  b.buffer.bufferLength

/-- `getCurrentBufferFill` (src/script-processor-backend.js lines 92-94). -/
def SPBackend.getCurrentBufferFill (b : SPBackend) : Nat :=
  b.buffer.getNReadableSamples

/-- `feed` (src/script-processor-backend.js lines 51-53). -/
def SPBackend.feed (b : SPBackend) (float32Array : List Int) : SPBackend :=
  { b with buffer := (b.buffer.write float32Array).1 }

/-- `clearBuffer` (src/script-processor-backend.js lines 67-69). -/
def SPBackend.clearBuffer (b : SPBackend) : SPBackend :=
  { b with buffer := b.buffer.clear }

/-- `_updateState` (src/script-processor-backend.js lines 101-120).  Returns
the updated backend together with the list of `onStateChange` notifications
fired (the code fires exactly one when `staleState != this.state`). -/
def SPBackend.updateState (b : SPBackend) : SPBackend × List BackendState :=
  let staleState := b.state
  let newState :=
    match b.state with
    | .uninitialized => b.state
    | .playing =>
        if b.buffer.getNReadableSamples = 0 then .starved else b.state
    | .ready | .starved =>
        if b.bufferThreshold ≤ (b.buffer.getNReadableSamples : ℚ) then .playing
        else b.state
  let b' := { b with state := newState }
  if staleState ≠ newState then (b', [newState]) else (b', [])

/-- `_playNext` (src/script-processor-backend.js lines 127-139): runs the state
machine, then either reads `batchSize` samples into the output arrays or writes
silence.  Returns the backend, the output-array contents, and the state-change
notifications fired. -/
def SPBackend.playNext (b : SPBackend) (outs : List (List Int)) :
    SPBackend × List (List Int) × List BackendState :=
  let p := b.updateState
  if p.1.state = .playing then
    let rd := p.1.buffer.read p.1.batchSize (some outs)
    ({ p.1 with buffer := rd.1 }, rd.2, p.2)
  else
    (p.1, writeSilence outs, p.2)

/-- `setBufferThreshold` (src/script-processor-backend.js lines 146-156): both
validation checks run before the assignment, so on error the backend is
unchanged.  Returns the backend together with the thrown message, if any. -/
def SPBackend.setBufferThreshold (b : SPBackend) (threshold : ℚ) :
    SPBackend × Option String :=
  if threshold < 0 then
    (b, some "bufferThreshold cannot be less than 0")
  else if (b.bufferLength : ℚ) < threshold then
    (b, some "bufferThreshold cannot be greater than bufferLength")
  else
    ({ b with bufferThreshold := threshold }, none)

/-- The fixed worklet batch size (src/feeder-node.js line 192,
`const BATCH_SIZE = 128`). -/
def BATCH_SIZE : Nat := 128

/-- `WorkletProcessor` (src/feeder-node.js lines 195-354), specialised to the
`fifo_queue` buffer variant built by `_init`. -/
structure WorkletProcessor where
  nChannels : Nat
  bufferThreshold : ℚ
  state : BackendState
  buffer : AudioQueue
deriving DecidableEq, Repr

/-- `WorkletProcessor._updateState` (src/feeder-node.js lines 235-254), with
the posted `stateChange` messages returned as a list. -/
def WorkletProcessor.updateState (w : WorkletProcessor) :
    WorkletProcessor × List BackendState :=
  let staleState := w.state
  let newState :=
    match w.state with
    | .uninitialized => w.state
    | .playing =>
        if w.buffer.getNReadableSamples = 0 then .starved else w.state
    | .ready | .starved =>
        if w.bufferThreshold ≤ (w.buffer.getNReadableSamples : ℚ) then .playing
        else w.state
  let w' := { w with state := newState }
  if staleState ≠ newState then (w', [newState]) else (w', [])

/-- `WorkletProcessor.process` (src/feeder-node.js lines 216-226) acting on
`outputs[0]`, the per-channel output arrays. -/
def WorkletProcessor.process (w : WorkletProcessor) (outputs0 : List (List Int)) :
    WorkletProcessor × List (List Int) × List BackendState :=
  let p := w.updateState
  if p.1.state = .playing then
    let rd := p.1.buffer.read BATCH_SIZE (some outputs0)
    ({ p.1 with buffer := rd.1 }, rd.2, p.2)
  else
    (p.1, writeSilence outputs0, p.2)

/-- `AudioWorkletBackend` (src/audio-worklet-backend.js lines 59-200):
`bufferLength` is the stored construction-time length (updated only by
`bufferLengthChange` messages) and `_currentBufferFill` is the last fill value
received from the worklet. -/
structure AudioWorkletBackend where
  nChannels : Nat
  bufferLength : Nat
  batchSize : Nat
  state : BackendState
  currentBufferFill : Nat
deriving DecidableEq, Repr

/-- `AudioWorkletBackend.setBufferThreshold` (src/audio-worklet-backend.js
lines 143-157): validates, then posts a `setBufferThreshold` message.  Returns
the posted threshold (if any) together with the thrown message (if any). -/
def AudioWorkletBackend.setBufferThreshold (w : AudioWorkletBackend)
    (threshold : ℚ) : Option ℚ × Option String :=
  if threshold < 0 then
    (none, some "bufferThreshold cannot be less than 0")
  else if (w.bufferLength : ℚ) < threshold then
    (none, some "bufferThreshold cannot be greater than bufferLength")
  else
    (some threshold, none)

/-- The backend held by a `FeederNode` (src/feeder-node.js `this._backend`):
either a `ScriptProcessorBackend` or an `AudioWorkletBackend`. -/
inductive Backend
  | sp (b : SPBackend)
  | worklet (w : AudioWorkletBackend)
deriving DecidableEq, Repr

/-- Backend getter `bufferLength`, dispatched as in src/feeder-node.js line 32. -/
def Backend.bufferLength : Backend → Nat
  | .sp b => b.bufferLength
  | .worklet w => w.bufferLength

/-- Backend method `getCurrentBufferFill`, dispatched as in src/feeder-node.js
line 121 (the worklet backend returns its last known value synchronously). -/
def Backend.getCurrentBufferFill : Backend → Nat
  | .sp b => b.getCurrentBufferFill
  | .worklet w => w.currentBufferFill

/-- `FeederNode` (src/feeder-node.js), reduced to the backend handle that the
buffer-health computation consults. -/
structure FeederNode where
  backend : Backend
deriving DecidableEq, Repr

/-- `FeederNode.bufferLength` getter (src/feeder-node.js lines 31-33). -/
def FeederNode.bufferLength (fn : FeederNode) : Nat :=
  fn.backend.bufferLength

/-- `FeederNode.getCurrentBufferFill` (src/feeder-node.js lines 120-122). -/
def FeederNode.getCurrentBufferFill (fn : FeederNode) : Nat :=
  fn.backend.getCurrentBufferFill

/-- Extended rational: a JavaScript number that is either finite, NaN, or an
infinity.  Only the values reachable in the buffer-health computation matter. -/
inductive ExtQ
  | nan
  | pinf
  | ninf
  | fin (q : ℚ)
deriving DecidableEq, Repr

/-- JavaScript division of finite numbers: `0 / 0` is NaN and `x / 0` is a
signed infinity. -/
def jsDiv (a b : ℚ) : ExtQ :=
  if b = 0 then (if a = 0 then .nan else if 0 < a then .pinf else .ninf)
  else .fin (a / b)

/-- `Math.max` on extended values: NaN-propagating, otherwise the usual order
with the infinities at the ends. -/
def jsMax : ExtQ → ExtQ → ExtQ
  | .nan, _ => .nan
  | _, .nan => .nan
  | .pinf, _ => .pinf
  | _, .pinf => .pinf
  | .fin a, .fin b => .fin (max a b)
  | .ninf, x => x
  | x, .ninf => x

/-- `Math.min` on extended values: NaN-propagating, otherwise the usual order
with the infinities at the ends. -/
def jsMin : ExtQ → ExtQ → ExtQ
  | .nan, _ => .nan
  | _, .nan => .nan
  | .ninf, _ => .ninf
  | _, .ninf => .ninf
  | .fin a, .fin b => .fin (min a b)
  | .pinf, x => x
  | x, .pinf => x

/-- `FeederNode.getBufferHealth` (src/feeder-node.js lines 132-136):
`Math.min(1, Math.max(0, currentFill / maxFill))` where `currentFill` is
`getCurrentBufferFill()` and `maxFill` is the `bufferLength` getter. -/
def FeederNode.getBufferHealth (fn : FeederNode) : ExtQ :=
  jsMin (.fin 1)
    (jsMax (.fin 0)
      (jsDiv (fn.getCurrentBufferFill : ℚ) (fn.bufferLength : ℚ)))

/-- `VALID_BATCH_SIZES` (src/index.js line 13). -/
def VALID_BATCH_SIZES : List ℚ :=
  [128, 256, 512, 1024, 2048, 4096, 8192, 16384]

/-- `validate` (src/index.js lines 118-142), with the checks in source order.
`nChannels` is `none` when the caller omitted the argument (the
`nChannels === undefined` check). -/
def validate (nChannels : Option ℚ) (batchSize bufferThreshold bufferLength
    converterType inputSampleRate : ℚ) (bufferType : BufferType) :
    Except String Unit :=
  match nChannels with
  | none => .error "nChannels is undefined"
  | some nc =>
    if nc < 1 ∨ 2 < nc then .error "invalid nChannels"
    else if batchSize ∉ VALID_BATCH_SIZES then .error "invalid batchSize"
    else if bufferLength < 16384 then
      .error "buffer length must be greater than 16384"
    else if bufferThreshold < 0 then
      .error "bufferThreshold cannot be less than 0"
    else if bufferLength < bufferThreshold then
      .error "bufferThreshold cannot be greater than bufferLength"
    else if converterType < 0 ∨ 4 < converterType then
      .error "invalid converterType"
    else if inputSampleRate < 1 ∨ 192000 < inputSampleRate then
      .error "invalid inputSampleRate"
    else if bufferType ≠ .ring_buffer ∧ bufferType ≠ .fifo_queue then
      .error "invalid bufferType"
    else .ok ()

/-- The `ConverterType.SRC_SINC_FASTEST` constant of the external
libsamplerate-js enumeration, used as the `resampConverterType` default in
src/index.js line 44. -/
def SRC_SINC_FASTEST : ℚ := 2

/-- The `options` object accepted by `createNode` (src/index.js lines 18-29),
restricted to the members that take part in validation. -/
structure Options where
  batchSize : Option ℚ := none
  bufferThreshold : Option ℚ := none
  bufferLength : Option ℚ := none
  bufferType : Option BufferType := none
  resampConverterType : Option ℚ := none
  inputSampleRate : Option ℚ := none
deriving DecidableEq, Repr

/-- Host environment flags consulted by `createNode` (src/index.js):
`window.AudioWorklet !== undefined`, `window.WebAssembly !== undefined` and
`context.sampleRate`. -/
structure Env where
  audioWorkletSupported : Bool
  webAssemblySupported : Bool
  contextSampleRate : ℚ
deriving DecidableEq, Repr

/-- JavaScript `a || d` on an optional numeric option: the default is used both
when the member is absent and when it is the falsy number 0. -/
def jsOr (v : Option ℚ) (d : ℚ) : ℚ :=
  match v with
  | none => d
  | some x => if x = 0 then d else x

/-- The configuration values resolved by `createNode` (src/index.js lines
37-51) before validation, and handed to `createBackend` / `createResampler`
after validation succeeds. -/
structure ResolvedConfig where
  batchSize : ℚ
  bufferThreshold : ℚ
  bufferLength : ℚ
  bufferType : BufferType
  converterType : ℚ
  inputSampleRate : ℚ
deriving DecidableEq, Repr

/-- Option resolution performed at the top of `createNode` (src/index.js lines
37-51). -/
def resolveOptions (env : Env) (opts : Options) : ResolvedConfig :=
  { batchSize := jsOr opts.batchSize (if env.audioWorkletSupported then 128 else 512),
    bufferThreshold := jsOr opts.bufferThreshold 4096,
    bufferLength := jsOr opts.bufferLength 192000,
    bufferType := opts.bufferType.getD .ring_buffer,
    converterType := opts.resampConverterType.getD SRC_SINC_FASTEST,
    inputSampleRate := jsOr opts.inputSampleRate env.contextSampleRate }

/-- `createNode` (src/index.js lines 36-88): resolves options, validates, and
only on success proceeds to allocate the backend and the resampler (modelled by
returning the validated configuration that those allocations receive). -/
def createNode (env : Env) (nChannels : Option ℚ) (opts : Options) :
    Except String ResolvedConfig :=
  let cfg := resolveOptions env opts
  match validate nChannels cfg.batchSize cfg.bufferThreshold cfg.bufferLength
      cfg.converterType cfg.inputSampleRate cfg.bufferType with
  | .error e => .error e
  | .ok _ => .ok cfg

/-- Operations applied to an `AudioQueue` over its lifetime: `write` with an
interleaved chunk, implicit-allocation `read` of `n` samples, and `clear`. -/
inductive QOp
  | write (d : List Int)
  | read (n : Nat)
  | clear
deriving DecidableEq, Repr

/-- Applies one operation to the queue. -/
def AudioQueue.runOp (q : AudioQueue) : QOp → AudioQueue
  | .write d => (q.write d).1
  | .read n => (q.read n none).1
  | .clear => q.clear

/-- Per-channel samples added to the queue by one operation. -/
def opWritten (nCh : Nat) : QOp → Nat
  | .write d => d.length / nCh
  | _ => 0

/-- Per-channel samples removed from the queue by one operation applied to `q`:
a read removes what its loop consumed, a clear discards everything. -/
def opRemoved (q : AudioQueue) : QOp → Nat
  | .write _ => 0
  | .read n => samplesReadCount q.nChannels q.queue (min n q.samplesInQueue)
  | .clear => q.samplesInQueue

/-- Runs a list of operations, returning the final queue together with the
total samples written and the total samples removed along the way. -/
def AudioQueue.runTrace (q : AudioQueue) : List QOp → AudioQueue × Nat × Nat
  | [] => (q, 0, 0)
  | op :: rest =>
    let t := (q.runOp op).runTrace rest
    (t.1, opWritten q.nChannels op + t.2.1, opRemoved q op + t.2.2)

/-! ### Helper lemmas about the read loop -/

theorem readChannel_cons_full {nCh c : Nat} {chunk : List Int} {rest : List (List Int)} {b : Nat}
    (h0 : b ≠ 0) (hsb : chunk.length / nCh ≤ b) :
    readChannel nCh c (chunk :: rest) b =
      chunkChannel nCh c chunk ++ readChannel nCh c rest (b - chunk.length / nCh) := by
  simp only [readChannel, if_neg h0, min_eq_left hsb, if_pos rfl, chunkChannel, if_true]

theorem readChannel_cons_part {nCh c : Nat} {chunk : List Int} {rest : List (List Int)} {b : Nat}
    (h0 : b ≠ 0) (hbs : b < chunk.length / nCh) :
    readChannel nCh c (chunk :: rest) b =
      (List.range b).map (fun i => chunk.getD (i * nCh + c) 0) := by
  simp only [readChannel, if_neg h0, min_eq_right hbs.le, if_neg (Nat.ne_of_lt hbs),
    List.append_nil]

theorem remainingQueue_cons_full {nCh : Nat} {chunk : List Int} {rest : List (List Int)} {b : Nat}
    (h0 : b ≠ 0) (hsb : chunk.length / nCh ≤ b) :
    remainingQueue nCh (chunk :: rest) b = remainingQueue nCh rest (b - chunk.length / nCh) := by
  simp only [remainingQueue, if_neg h0, min_eq_left hsb, if_pos rfl, if_true]

theorem remainingQueue_cons_part {nCh : Nat} {chunk : List Int} {rest : List (List Int)} {b : Nat}
    (h0 : b ≠ 0) (hbs : b < chunk.length / nCh) :
    remainingQueue nCh (chunk :: rest) b = chunk.drop (b * nCh) :: rest := by
  simp only [remainingQueue, if_neg h0, min_eq_right hbs.le, if_neg (Nat.ne_of_lt hbs)]

theorem samplesReadCount_cons_full {nCh : Nat} {chunk : List Int} {rest : List (List Int)} {b : Nat}
    (h0 : b ≠ 0) (hsb : chunk.length / nCh ≤ b) :
    samplesReadCount nCh (chunk :: rest) b =
      chunk.length / nCh + samplesReadCount nCh rest (b - chunk.length / nCh) := by
  simp only [samplesReadCount, if_neg h0, min_eq_left hsb, if_pos rfl, if_true]

theorem samplesReadCount_cons_part {nCh : Nat} {chunk : List Int} {rest : List (List Int)} {b : Nat}
    (h0 : b ≠ 0) (hbs : b < chunk.length / nCh) :
    samplesReadCount nCh (chunk :: rest) b = b := by
  simp only [samplesReadCount, if_neg h0, min_eq_right hbs.le, if_neg (Nat.ne_of_lt hbs),
    Nat.add_zero]

theorem chunkChannel_length (nCh c : Nat) (chunk : List Int) :
    (chunkChannel nCh c chunk).length = chunk.length / nCh := by
  simp [chunkChannel]

theorem totalSamples_nil (nCh : Nat) : totalSamples nCh [] = 0 := rfl

theorem totalSamples_cons (nCh : Nat) (chunk : List Int) (rest : List (List Int)) :
    totalSamples nCh (chunk :: rest) = chunk.length / nCh + totalSamples nCh rest := by
  simp [totalSamples]

theorem getD_drop (l : List Int) (m j : Nat) (d : Int) :
    (l.drop m).getD j d = l.getD (m + j) d := by
  simp [List.getD_eq_getElem?_getD, List.getElem?_drop]

theorem getD_map_range {α : Type} (k c : Nat) (f : Nat → α) (d : α) (hc : c < k) :
    ((List.range k).map f).getD c d = f c := by
  simp [List.getD_eq_getElem?_getD, List.getElem?_range, hc]
theorem samplesReadCount_eq (nCh : Nat) :
    ∀ (queue : List (List Int)) (b : Nat), b ≤ totalSamples nCh queue →
      samplesReadCount nCh queue b = b
  | [], b, hb => by
      simp only [totalSamples_nil, Nat.le_zero] at hb
      simp [samplesReadCount, hb]
  | chunk :: rest, b, hb => by
      rw [totalSamples_cons] at hb
      by_cases h0 : b = 0
      · simp [samplesReadCount, h0]
      · rcases le_or_lt (chunk.length / nCh) b with hsb | hbs
        · rw [samplesReadCount_cons_full h0 hsb,
            samplesReadCount_eq nCh rest (b - chunk.length / nCh) (by omega)]
          omega
        · exact samplesReadCount_cons_part h0 hbs

theorem readChannel_eq_take (nCh c : Nat) :
    ∀ (queue : List (List Int)) (b : Nat), b ≤ totalSamples nCh queue →
      readChannel nCh c queue b = ((queue.map (chunkChannel nCh c)).flatten).take b
  | [], b, _ => by simp [readChannel]
  | chunk :: rest, b, hb => by
      rw [totalSamples_cons] at hb
      by_cases h0 : b = 0
      · simp [readChannel, h0]
      · have hlenA : (chunkChannel nCh c chunk).length = chunk.length / nCh :=
          chunkChannel_length nCh c chunk
        rw [List.map_cons, List.flatten_cons, List.take_append_eq_append_take, hlenA]
        rcases le_or_lt (chunk.length / nCh) b with hsb | hbs
        · rw [readChannel_cons_full h0 hsb,
            readChannel_eq_take nCh c rest (b - chunk.length / nCh) (by omega)]
          have htk : List.take b (chunkChannel nCh c chunk) = chunkChannel nCh c chunk :=
            List.take_of_length_le (by rw [hlenA]; exact hsb)
          rw [htk]
        · rw [readChannel_cons_part h0 hbs, Nat.sub_eq_zero_of_le hbs.le,
            List.take_zero, List.append_nil, chunkChannel, ← List.map_take,
            List.take_range, min_eq_left hbs.le]

theorem remainingQueue_dvd (nCh : Nat) :
    ∀ (queue : List (List Int)) (b : Nat), (∀ ch ∈ queue, nCh ∣ ch.length) →
      ∀ ch ∈ remainingQueue nCh queue b, nCh ∣ ch.length
  | [], b, _ => by simp [remainingQueue]
  | chunk :: rest, b, hdvd => by
      by_cases h0 : b = 0
      · simpa [remainingQueue, h0] using hdvd
      · rcases le_or_lt (chunk.length / nCh) b with hsb | hbs
        · rw [remainingQueue_cons_full h0 hsb]
          exact remainingQueue_dvd nCh rest (b - chunk.length / nCh)
            (fun ch hch => hdvd ch (List.mem_cons_of_mem _ hch))
        · rw [remainingQueue_cons_part h0 hbs]
          intro ch hch
          rcases List.mem_cons.mp hch with h | h
          · subst h
            rw [List.length_drop]
            exact Nat.dvd_sub' (hdvd chunk (List.mem_cons_self _ _))
              (dvd_mul_left nCh b)
          · exact hdvd ch (List.mem_cons_of_mem _ h)

theorem remainingQueue_total (nCh : Nat) (hn : 0 < nCh) :
    ∀ (queue : List (List Int)) (b : Nat), (∀ ch ∈ queue, nCh ∣ ch.length) →
      b ≤ totalSamples nCh queue →
      totalSamples nCh (remainingQueue nCh queue b) = totalSamples nCh queue - b
  | [], b, _, hb => by
      simp only [totalSamples_nil, Nat.le_zero] at hb
      simp [remainingQueue, hb]
  | chunk :: rest, b, hdvd, hb => by
      rw [totalSamples_cons] at hb
      by_cases h0 : b = 0
      · simp [remainingQueue, h0]
      · rcases le_or_lt (chunk.length / nCh) b with hsb | hbs
        · rw [remainingQueue_cons_full h0 hsb,
            remainingQueue_total nCh hn rest (b - chunk.length / nCh)
              (fun ch hch => hdvd ch (List.mem_cons_of_mem _ hch)) (by omega),
            totalSamples_cons]
          omega
        · have hdc : nCh ∣ chunk.length := hdvd chunk (List.mem_cons_self _ _)
          have hlen : chunk.length = chunk.length / nCh * nCh :=
            (Nat.div_mul_cancel hdc).symm
          have hq : (chunk.length - b * nCh) / nCh = chunk.length / nCh - b := by
            rw [hlen, ← Nat.sub_mul, Nat.mul_div_cancel _ hn, Nat.mul_div_cancel _ hn]
          rw [remainingQueue_cons_part h0 hbs, totalSamples_cons, totalSamples_cons,
            List.length_drop, hq]
          omega

theorem map_range_drop {α : Type} (f : Nat → α) (n m : Nat) (hm : m ≤ n) :
    ((List.range n).map f).drop m = (List.range (n - m)).map (fun i => f (m + i)) := by
  have h : n = m + (n - m) := by omega
  conv_lhs => rw [← List.map_drop, h, List.range_add]
  rw [List.drop_append_eq_append_drop, List.length_range,
    List.drop_eq_nil_of_le (le_of_eq (List.length_range m)), Nat.sub_self,
    List.drop_zero, List.nil_append, List.map_map]
  rfl

theorem chunkChannel_drop (nCh c : Nat) (hn : 0 < nCh) (chunk : List Int)
    (hdvd : nCh ∣ chunk.length) (b : Nat) (hb : b ≤ chunk.length / nCh) :
    chunkChannel nCh c (chunk.drop (b * nCh)) = (chunkChannel nCh c chunk).drop b := by
  have hlen : chunk.length = chunk.length / nCh * nCh :=
    (Nat.div_mul_cancel hdvd).symm
  have hq : (chunk.length - b * nCh) / nCh = chunk.length / nCh - b := by
    rw [hlen, ← Nat.sub_mul, Nat.mul_div_cancel _ hn, Nat.mul_div_cancel _ hn]
  have hL : chunkChannel nCh c (chunk.drop (b * nCh)) =
      (List.range (chunk.length / nCh - b)).map
        (fun i => (chunk.drop (b * nCh)).getD (i * nCh + c) 0) := by
    rw [chunkChannel, List.length_drop, hq]
  rw [hL, chunkChannel, map_range_drop _ _ _ hb]
  refine List.map_congr_left (fun i _ => ?_)
  rw [getD_drop]
  congr 1
  ring

theorem remainingQueue_content (nCh c : Nat) (hn : 0 < nCh) :
    ∀ (queue : List (List Int)) (b : Nat), (∀ ch ∈ queue, nCh ∣ ch.length) →
      b ≤ totalSamples nCh queue →
      ((remainingQueue nCh queue b).map (chunkChannel nCh c)).flatten =
        ((queue.map (chunkChannel nCh c)).flatten).drop b
  | [], b, _, hb => by
      simp only [totalSamples_nil, Nat.le_zero] at hb
      simp [remainingQueue, hb]
  | chunk :: rest, b, hdvd, hb => by
      rw [totalSamples_cons] at hb
      by_cases h0 : b = 0
      · simp [remainingQueue, h0]
      · have hlenA : (chunkChannel nCh c chunk).length = chunk.length / nCh :=
          chunkChannel_length nCh c chunk
        rw [List.map_cons, List.flatten_cons, List.drop_append_eq_append_drop, hlenA]
        rcases le_or_lt (chunk.length / nCh) b with hsb | hbs
        · rw [remainingQueue_cons_full h0 hsb,
            remainingQueue_content nCh c hn rest (b - chunk.length / nCh)
              (fun ch hch => hdvd ch (List.mem_cons_of_mem _ hch)) (by omega)]
          have hnil : List.drop b (chunkChannel nCh c chunk) = [] :=
            List.drop_eq_nil_of_le (by rw [hlenA]; exact hsb)
          rw [hnil, List.nil_append]
        · rw [remainingQueue_cons_part h0 hbs, List.map_cons, List.flatten_cons,
            chunkChannel_drop nCh c hn chunk (hdvd chunk (List.mem_cons_self _ _)) b hbs.le,
            Nat.sub_eq_zero_of_le hbs.le, List.drop_zero]

/-! ### Queue-level content lemmas -/

theorem AudioQueue.content_length (q : AudioQueue) (hq : q.WF) (c : Nat) :
    (q.content c).length = q.samplesInQueue := by
  rw [AudioQueue.content, List.length_flatten, List.map_map]
  have hmap : (q.queue.map (List.length ∘ chunkChannel q.nChannels c)) =
      (q.queue.map (fun ch => ch.length / q.nChannels)) :=
    List.map_congr_left (fun ch _ => by
      simp [Function.comp_apply, chunkChannel_length])
  rw [hmap]
  exact hq.2.2.symm

theorem AudioQueue.read_none_eq (q : AudioQueue) (n : Nat)
    (hm : min n q.samplesInQueue ≠ 0) :
    q.read n none =
      ({ q with
          queue := remainingQueue q.nChannels q.queue (min n q.samplesInQueue),
          samplesInQueue :=
            q.samplesInQueue -
              samplesReadCount q.nChannels q.queue (min n q.samplesInQueue) },
       (List.range q.nChannels).map (fun c =>
          readChannel q.nChannels c q.queue (min n q.samplesInQueue) ++
            List.replicate
              (n - samplesReadCount q.nChannels q.queue (min n q.samplesInQueue))
              (0 : Int))) := by
  simp only [AudioQueue.read, AudioQueue.getNReadableSamples, if_neg hm]

theorem AudioQueue.read_some_eq (q : AudioQueue) (n : Nat) (chs : List (List Int))
    (hm : min n q.samplesInQueue ≠ 0) :
    q.read n (some chs) =
      ({ q with
          queue := remainingQueue q.nChannels q.queue (min n q.samplesInQueue),
          samplesInQueue :=
            q.samplesInQueue -
              samplesReadCount q.nChannels q.queue (min n q.samplesInQueue) },
       (List.range chs.length).map (fun j =>
          overwriteFront (chs.getD j [])
            (if j < q.nChannels then
              readChannel q.nChannels j q.queue (min n q.samplesInQueue)
             else []))) := by
  simp only [AudioQueue.read, AudioQueue.getNReadableSamples, if_neg hm]

theorem AudioQueue.read_zero_eq (q : AudioQueue) (n : Nat)
    (channels : Option (List (List Int))) (hm : min n q.samplesInQueue = 0) :
    q.read n channels =
      (q, match channels with
          | none => (List.range q.nChannels).map (fun _ => ([] : List Int))
          | some chs =>
              chs.map (fun ch =>
                List.replicate (min ch.length n) (0 : Int) ++ ch.drop n)) := by
  simp only [AudioQueue.read, AudioQueue.getNReadableSamples, if_pos hm]

theorem AudioQueue.read_none_spec (q : AudioQueue) (hq : q.WF) (n : Nat) :
    ((q.read n none).1.WF)
    ∧ ((q.read n none).1.nChannels = q.nChannels)
    ∧ (∀ c, (q.read n none).1.content c = (q.content c).drop (min n q.samplesInQueue))
    ∧ ((q.read n none).1.samplesInQueue = q.samplesInQueue - min n q.samplesInQueue)
    ∧ (∀ c, c < q.nChannels →
        (q.read n none).2.getD c [] =
          if min n q.samplesInQueue = 0 then ([] : List Int)
          else (q.content c).take (min n q.samplesInQueue) ++
            List.replicate (n - min n q.samplesInQueue) (0 : Int)) := by
  obtain ⟨hn, hdvd, htot⟩ := hq
  by_cases hm : min n q.samplesInQueue = 0
  · rw [AudioQueue.read_zero_eq q n none hm]
    refine ⟨⟨hn, hdvd, htot⟩, rfl, ?_, ?_, ?_⟩
    · intro c; rw [hm, List.drop_zero]
    · rw [hm, Nat.sub_zero]
    · intro c hc
      rw [if_pos hm]
      exact getD_map_range q.nChannels c _ [] hc
  · have hble : min n q.samplesInQueue ≤ totalSamples q.nChannels q.queue :=
      htot ▸ min_le_right n q.samplesInQueue
    have hcnt : samplesReadCount q.nChannels q.queue (min n q.samplesInQueue) =
        min n q.samplesInQueue :=
      samplesReadCount_eq q.nChannels q.queue _ hble
    rw [AudioQueue.read_none_eq q n hm]
    refine ⟨⟨hn, remainingQueue_dvd q.nChannels q.queue _ hdvd, ?_⟩, rfl, ?_, ?_, ?_⟩
    · rw [hcnt,
        remainingQueue_total q.nChannels hn q.queue _ hdvd hble, htot]
    · intro c
      exact remainingQueue_content q.nChannels c hn q.queue _ hdvd hble
    · rw [hcnt]
    · intro c hc
      rw [if_neg hm, getD_map_range q.nChannels c _ [] hc, hcnt,
        readChannel_eq_take q.nChannels c q.queue _ hble]
      rfl

theorem AudioQueue.write_spec (q : AudioQueue) (hq : q.WF) (d : List Int)
    (hd : q.nChannels ∣ d.length) :
    ((q.write d).1.WF)
    ∧ ((q.write d).1.nChannels = q.nChannels)
    ∧ (∀ c, (q.write d).1.content c = q.content c ++ chunkChannel q.nChannels c d)
    ∧ ((q.write d).1.samplesInQueue = q.samplesInQueue + d.length / q.nChannels)
    ∧ ((q.write d).2 = (false, q.samplesInQueue + d.length / q.nChannels)) := by
  obtain ⟨hn, hdvd, htot⟩ := hq
  refine ⟨⟨hn, ?_, ?_⟩, rfl, ?_, rfl, rfl⟩
  · intro ch hch
    rcases List.mem_append.mp hch with h | h
    · exact hdvd ch h
    · rw [List.mem_singleton.mp h]
      exact hd
  · show q.samplesInQueue + d.length / q.nChannels =
      totalSamples q.nChannels (q.queue ++ [d])
    rw [htot]
    simp [totalSamples]
  · intro c
    show ((q.queue ++ [d]).map (chunkChannel q.nChannels c)).flatten =
      q.content c ++ chunkChannel q.nChannels c d
    rw [List.map_append, List.flatten_append]
    simp [AudioQueue.content]

theorem AudioQueue.clear_spec (q : AudioQueue) (hq : q.WF) :
    q.clear.samplesInQueue = 0 ∧ q.clear.queue = [] ∧
      q.clear.nChannels = q.nChannels ∧ (∀ c, q.clear.content c = []) ∧ q.clear.WF := by
  exact ⟨rfl, rfl, rfl, fun c => rfl, hq.1, by simp [AudioQueue.clear], rfl⟩

/-! ### Claims -/

/-- C1: For every FifoQueue (AudioQueue) with channel count N and interleaved
writes, reads deliver, per channel, exactly the deinterleaved concatenation of
the written data in write order — no sample lost or duplicated.  `write`
appends the chunk's deinterleaving to the per-channel content; `read n`
delivers precisely the first `min n available` samples of that content (the
front) and leaves precisely the rest (the partially consumed chunk is
front-trimmed), so any sequence of reads — including a first read smaller than
the first chunk followed by further reads — returns consecutive, disjoint,
exhaustive segments of the written data. -/
theorem C1_fifo_deinterleave_exact (q : AudioQueue) (hq : q.WF) (c : Nat)
    (hc : c < q.nChannels) (d : List Int) (hd : q.nChannels ∣ d.length) (n : Nat) :
    ((q.write d).1.content c = q.content c ++ chunkChannel q.nChannels c d)
    ∧ ((q.write d).1.WF)
    ∧ ((q.read n none).1.WF)
    ∧ ((q.read n none).1.content c = (q.content c).drop (min n q.samplesInQueue))
    ∧ (((q.read n none).2.getD c []).take (min n q.samplesInQueue) =
        (q.content c).take (min n q.samplesInQueue)) := by
  obtain ⟨hw1, _, hw3, _, _⟩ := q.write_spec hq d hd
  obtain ⟨hr1, _, hr3, _, hr5⟩ := q.read_none_spec hq n
  refine ⟨hw3 c, hw1, hr1, hr3 c, ?_⟩
  rw [hr5 c hc]
  by_cases hm : min n q.samplesInQueue = 0
  · simp [hm]
  · rw [if_neg hm, List.take_append_eq_append_take, List.take_take, min_self]
    have hlen : ((q.content c).take (min n q.samplesInQueue)).length =
        min n q.samplesInQueue := by
      rw [List.length_take, AudioQueue.content_length q hq c]
      omega
    rw [hlen, Nat.sub_self, List.take_zero, List.append_nil]

/-- Witness for C1 at a concrete queue: two stereo chunks of 2 and 1 frames,
read 3 frames from channel 0. -/
theorem C1_witness :
    (((AudioQueue.mk [[1, 2, 3, 4], [5, 6]] 2 32768 3).read 3 none).2.getD 0 []).take
        (min 3 (AudioQueue.mk [[1, 2, 3, 4], [5, 6]] 2 32768 3).samplesInQueue) =
      ((AudioQueue.mk [[1, 2, 3, 4], [5, 6]] 2 32768 3).content 0).take
        (min 3 (AudioQueue.mk [[1, 2, 3, 4], [5, 6]] 2 32768 3).samplesInQueue) :=
  (C1_fifo_deinterleave_exact (AudioQueue.mk [[1, 2, 3, 4], [5, 6]] 2 32768 3)
    (by decide) 0 (by decide) [7, 8] (by decide) 3).2.2.2.2

/-- C2: The playback state update is a pure function of
(current state, readable length, threshold): from Playing it moves to Starved
exactly when the readable length is 0; from Ready or Starved it moves to
Playing exactly when readable length is at least the threshold (so threshold 0
is always eligible once initialized); from Uninitialized no transition occurs;
each update emits exactly one state-change notification when the state changed
and none otherwise; and the ScriptProcessorBackend and WorkletProcessor
updates agree whenever their (state, readable length, threshold) triples
agree. -/
theorem C2_update_state_pure (b : SPBackend) (w : WorkletProcessor)
    (hstate : w.state = b.state) (hthr : w.bufferThreshold = b.bufferThreshold)
    (hread : w.buffer.getNReadableSamples = b.buffer.getNReadableSamples) :
    ((b.state = .playing →
        (b.updateState).1.state =
          (if b.buffer.getNReadableSamples = 0 then .starved else .playing)))
    ∧ ((b.state = .ready ∨ b.state = .starved) →
        (b.updateState).1.state =
          (if b.bufferThreshold ≤ (b.buffer.getNReadableSamples : ℚ) then .playing
           else b.state))
    ∧ (b.state = .uninitialized → (b.updateState).1.state = .uninitialized)
    ∧ ((b.updateState).2 =
        (if (b.updateState).1.state = b.state then []
         else [(b.updateState).1.state]))
    ∧ ((b.updateState).1.bufferThreshold = b.bufferThreshold
        ∧ (b.updateState).1.buffer = b.buffer)
    ∧ ((w.updateState).1.state = (b.updateState).1.state
        ∧ (w.updateState).2 = (b.updateState).2) := by
  obtain ⟨nc, bs, thr, st, buf⟩ := b
  obtain ⟨nc2, thr2, st2, buf2⟩ := w
  simp only at hstate hthr hread
  subst hstate hthr
  cases st2 <;>
    simp only [SPBackend.updateState, WorkletProcessor.updateState, hread] <;>
    split_ifs <;>
    simp_all

/-- Witness for C2 at a concrete pair of backends in state Ready with
threshold 3 and 5 readable samples. -/
theorem C2_witness :
    ((SPBackend.mk 2 512 3 .ready (AudioQueue.mk [[1, 2]] 2 32768 5)).updateState).1.state =
      (if (3 : ℚ) ≤
          ((AudioQueue.mk [[1, 2]] 2 32768 5).getNReadableSamples : ℚ) then .playing
       else BackendState.ready) :=
  ((C2_update_state_pure (SPBackend.mk 2 512 3 .ready (AudioQueue.mk [[1, 2]] 2 32768 5))
      (WorkletProcessor.mk 2 3 .ready (AudioQueue.mk [[3, 4]] 2 16384 5))
      rfl rfl rfl).2.1 (Or.inl rfl))

/-- C3: On a Ready buffer with threshold 0 and zero buffered samples, the very
first periodic pull transitions to Playing, emits exactly one Playing
notification, and that same pull's output is all-zero frames because the read
of a batch from the empty buffer zero-fills the supplied output arrays.  Shown
for both the ScriptProcessorBackend pull and the WorkletProcessor pull. -/
theorem C3_threshold_zero_first_pull (b : SPBackend) (outs : List (List Int))
    (hstate : b.state = .ready) (hthr : b.bufferThreshold = 0)
    (hempty : b.buffer.samplesInQueue = 0)
    (houts : ∀ ch ∈ outs, ch.length = b.batchSize)
    (w : WorkletProcessor) (wouts : List (List Int))
    (hwstate : w.state = .ready) (hwthr : w.bufferThreshold = 0)
    (hwempty : w.buffer.samplesInQueue = 0)
    (hwouts : ∀ ch ∈ wouts, ch.length = BATCH_SIZE) :
    ((b.playNext outs).1.state = .playing)
    ∧ ((b.playNext outs).2.2 = [.playing])
    ∧ ((b.playNext outs).2.1 = outs.map (fun _ => List.replicate b.batchSize (0 : Int)))
    ∧ ((w.process wouts).1.state = .playing)
    ∧ ((w.process wouts).2.2 = [.playing])
    ∧ ((w.process wouts).2.1 = wouts.map (fun _ => List.replicate BATCH_SIZE (0 : Int))) := by
  have hup : b.updateState =
      ({ b with state := .playing }, [BackendState.playing]) := by
    simp [SPBackend.updateState, hstate, hthr]
  have hwup : w.updateState =
      ({ w with state := .playing }, [BackendState.playing]) := by
    simp [WorkletProcessor.updateState, hwstate, hwthr]
  have hmin : ∀ n : Nat, min n b.buffer.samplesInQueue = 0 := by
    intro n; rw [hempty]; exact Nat.min_zero n
  have hwmin : ∀ n : Nat, min n w.buffer.samplesInQueue = 0 := by
    intro n; rw [hwempty]; exact Nat.min_zero n
  have hrd := AudioQueue.read_zero_eq b.buffer b.batchSize (some outs) (hmin _)
  have hwrd := AudioQueue.read_zero_eq w.buffer BATCH_SIZE (some wouts) (hwmin _)
  refine ⟨?_, ?_, ?_, ?_, ?_, ?_⟩ <;>
    simp only [SPBackend.playNext, WorkletProcessor.process, hup, hwup, hrd, hwrd,
      if_pos rfl] <;>
    try rfl
  · exact List.map_congr_left (fun ch hch => by
      rw [houts ch hch, min_self, List.drop_eq_nil_of_le (le_of_eq (houts ch hch)),
        List.append_nil])
  · exact List.map_congr_left (fun ch hch => by
      rw [hwouts ch hch, min_self, List.drop_eq_nil_of_le (le_of_eq (hwouts ch hch)),
        List.append_nil])

/-- Witness for C3: stereo backend with batch size 4 and a 128-sample worklet
batch, both freshly Ready with threshold 0 and empty fifo queues. -/
theorem C3_witness :
    ((SPBackend.mk 2 4 0 .ready (AudioQueue.new 32768 2)).playNext
        [[9, 9, 9, 9], [9, 9, 9, 9]]).2.1 =
      [[9, 9, 9, 9], [9, 9, 9, 9]].map (fun _ => List.replicate 4 (0 : Int)) :=
  (C3_threshold_zero_first_pull (SPBackend.mk 2 4 0 .ready (AudioQueue.new 32768 2))
    [[9, 9, 9, 9], [9, 9, 9, 9]] rfl rfl rfl (by decide)
    (WorkletProcessor.mk 2 0 .ready (AudioQueue.new 16384 2))
    [List.replicate 128 (5 : Int)] rfl rfl rfl
    (by intro ch hch; rw [List.mem_singleton.mp hch]; simp [BATCH_SIZE])).2.2.1

/-- C4 counterexample: a one-channel queue holding a single sample, read with
`nSamples = 3` and no pre-allocated output arrays.  Exactly one sample is
available (more than zero, fewer than requested), yet the returned per-channel
array has length 3 — the requested length, not the available count — refuting
the claim that the implicit-allocation form returns arrays of the
actually-available length. -/
theorem C4_counterexample :
    (0 < (AudioQueue.mk [[7]] 1 32768 1).samplesInQueue
      ∧ (AudioQueue.mk [[7]] 1 32768 1).samplesInQueue < 3)
    ∧ (((AudioQueue.mk [[7]] 1 32768 1).read 3 none).2.getD 0 []).length = 3
    ∧ ((AudioQueue.mk [[7]] 1 32768 1).read 3 none).2.getD 0 [] = [7, 0, 0] := by
  decide

/-- C4 (amended): when fewer than `n` samples are available but more than
zero, the implicit-allocation form of `read(n)` returns per-channel arrays of
length `n` — the available data at the front, zero-filled beyond it (arrays of
the actually-available length occur only when zero samples are available, in
which case length-0 arrays are returned); when output arrays of length `n` are
supplied, positions beyond the available data are zero-filled and the full
requested length `n` is returned. -/
theorem C4_read_shapes (q : AudioQueue) (hq : q.WF) (n : Nat) (c : Nat)
    (hc : c < q.nChannels) (hpos : 0 < q.samplesInQueue)
    (hlt : q.samplesInQueue < n)
    (chs : List (List Int)) (hchs : chs.length = q.nChannels)
    (hchlen : ∀ ch ∈ chs, ch.length = n) :
    (((q.read n none).2.getD c []).length = n)
    ∧ ((q.read n none).2.getD c [] =
        q.content c ++ List.replicate (n - q.samplesInQueue) (0 : Int))
    ∧ (((q.read n (some chs)).2.getD c []).length = n)
    ∧ ((q.read n (some chs)).2.getD c [] =
        q.content c ++ List.replicate (n - q.samplesInQueue) (0 : Int)) := by
  have hmin : min n q.samplesInQueue = q.samplesInQueue := min_eq_right hlt.le
  have hm0 : min n q.samplesInQueue ≠ 0 := by omega
  have hble : min n q.samplesInQueue ≤ totalSamples q.nChannels q.queue :=
    hq.2.2 ▸ min_le_right n q.samplesInQueue
  have hcl : (q.content c).length = q.samplesInQueue :=
    AudioQueue.content_length q hq c
  have htake : (q.content c).take (min n q.samplesInQueue) = q.content c := by
    rw [hmin]
    exact List.take_of_length_le (le_of_eq hcl)
  obtain ⟨_, _, _, _, hr5⟩ := AudioQueue.read_none_spec q hq n
  have hnone : (q.read n none).2.getD c [] =
      q.content c ++ List.replicate (n - q.samplesInQueue) (0 : Int) := by
    rw [hr5 c hc, if_neg hm0, htake, hmin]
  have hcnt : samplesReadCount q.nChannels q.queue (min n q.samplesInQueue) =
      min n q.samplesInQueue :=
    samplesReadCount_eq q.nChannels q.queue _ hble
  have hsome : (q.read n (some chs)).2.getD c [] =
      q.content c ++ List.replicate (n - q.samplesInQueue) (0 : Int) := by
    rw [AudioQueue.read_some_eq q n chs hm0]
    have hclt : c < chs.length := hchs ▸ hc
    rw [getD_map_range chs.length c _ [] hclt, if_pos hc,
      readChannel_eq_take q.nChannels c q.queue _ hble]
    have hch : (chs.getD c []).length = n := by
      have h1 : chs.getD c [] = chs.get ⟨c, hclt⟩ := List.getD_eq_getElem chs [] hclt
      rw [h1]
      exact hchlen _ (List.getElem_mem hclt)
    show overwriteFront (chs.getD c [])
        ((q.content c).take (min n q.samplesInQueue)) =
      q.content c ++ List.replicate (n - q.samplesInQueue) (0 : Int)
    rw [htake, overwriteFront, hch, hcl,
      List.take_of_length_le (by rw [hcl]; omega)]
  refine ⟨?_, hnone, ?_, hsome⟩
  · rw [hnone, List.length_append, List.length_replicate, hcl]
    omega
  · rw [hsome, List.length_append, List.length_replicate, hcl]
    omega

/-- Witness for the amended C4 theorem: one sample available, three requested,
supplied output array of length 3 comes back as data plus zero padding. -/
theorem C4_witness :
    ((AudioQueue.mk [[7]] 1 32768 1).read 3 (some [[9, 9, 9]])).2.getD 0 [] =
      (AudioQueue.mk [[7]] 1 32768 1).content 0 ++
        List.replicate (3 - (AudioQueue.mk [[7]] 1 32768 1).samplesInQueue) (0 : Int) :=
  (C4_read_shapes (AudioQueue.mk [[7]] 1 32768 1) (by decide) 3 0 (by decide)
    (by decide) (by decide) [[9, 9, 9]] (by decide) (by decide)).2.2.2

/-- C5: For every current fill value and every capacity strictly greater than
0, `FeederNode.getBufferHealth` returns the finite value
clamp(fill / capacity, 0, 1), which lies in [0, 1]; in particular it is 1
whenever the fill exceeds the capacity.  Stated over a worklet-backed node,
whose `bufferLength` and last-known fill are independent stored values. -/
theorem C5_buffer_health_clamped (fill len : Nat) (hlen : 0 < len) :
    (FeederNode.getBufferHealth
        ⟨.worklet (AudioWorkletBackend.mk 2 len 128 .ready fill)⟩ =
      .fin (min 1 (max 0 ((fill : ℚ) / (len : ℚ)))))
    ∧ (∃ h : ℚ,
        FeederNode.getBufferHealth
            ⟨.worklet (AudioWorkletBackend.mk 2 len 128 .ready fill)⟩ = .fin h
          ∧ 0 ≤ h ∧ h ≤ 1)
    ∧ (len < fill →
        FeederNode.getBufferHealth
            ⟨.worklet (AudioWorkletBackend.mk 2 len 128 .ready fill)⟩ = .fin 1) := by
  have hlq : ((len : ℚ)) ≠ 0 := by
    exact_mod_cast Nat.pos_iff_ne_zero.mp hlen
  have hdiv : jsDiv (fill : ℚ) (len : ℚ) = .fin ((fill : ℚ) / (len : ℚ)) := by
    rw [jsDiv, if_neg hlq]
  have hmain : FeederNode.getBufferHealth
      ⟨.worklet (AudioWorkletBackend.mk 2 len 128 .ready fill)⟩ =
      .fin (min 1 (max 0 ((fill : ℚ) / (len : ℚ)))) := by
    rw [FeederNode.getBufferHealth]
    show jsMin (.fin 1) (jsMax (.fin 0) (jsDiv (fill : ℚ) (len : ℚ))) = _
    rw [hdiv, jsMax, jsMin]
  refine ⟨hmain, ⟨min 1 (max 0 ((fill : ℚ) / (len : ℚ))), hmain, ?_, ?_⟩, ?_⟩
  · exact le_min (by norm_num) (le_max_left 0 _)
  · exact min_le_left 1 _
  · intro hgt
    rw [hmain]
    have h1 : (1 : ℚ) ≤ (fill : ℚ) / (len : ℚ) := by
      rw [le_div_iff₀ (by exact_mod_cast hlen), one_mul]
      exact_mod_cast hgt.le
    have : max 0 ((fill : ℚ) / (len : ℚ)) = (fill : ℚ) / (len : ℚ) :=
      max_eq_right ((by norm_num : (0 : ℚ) ≤ 1).trans h1)
    rw [this, min_eq_left h1]

/-- Witness for C5 at fill 3, capacity 2 (overfull: health is exactly 1). -/
theorem C5_witness :
    0 < 2 ∧
      ((2 : Nat) < 3 →
        FeederNode.getBufferHealth
            ⟨.worklet (AudioWorkletBackend.mk 2 2 128 .ready 3)⟩ = .fin 1) :=
  ⟨by decide, (C5_buffer_health_clamped 3 2 (by decide)).2.2⟩

/-- C6 counterexample: the configuration with input sample rate 1/2 lies inside
every range the claim enumerates — in particular the sample rate is in
(0, 192000] — yet `validate` rejects it (the code's check is
`inputSampleRate < 1`), so it is not true that exactly the configurations
outside the claimed ranges are rejected. -/
theorem C6_counterexample :
    ((0 : ℚ) < 1 / 2 ∧ (1 / 2 : ℚ) ≤ 192000
      ∧ (1 : ℚ) ≤ 2 ∧ (2 : ℚ) ≤ 2
      ∧ (512 : ℚ) ∈ VALID_BATCH_SIZES
      ∧ (16384 : ℚ) ≤ 192000
      ∧ (0 : ℚ) ≤ 4096 ∧ (4096 : ℚ) ≤ 192000
      ∧ (0 : ℚ) ≤ 2 ∧ (2 : ℚ) ≤ 4)
    ∧ validate (some 2) 512 4096 192000 2 (1 / 2) .ring_buffer =
        .error "invalid inputSampleRate" := by
  constructor
  · norm_num [VALID_BATCH_SIZES]
  · norm_num [validate, VALID_BATCH_SIZES]

/-- C6 (amended): construction validates eagerly — `createNode` resolves the
options, runs `validate` on them, and a validation error is returned before
any backend or resampler construction — and `validate` accepts exactly the
configurations with channel count in [1,2], batch size in
{128, 256, 512, 1024, 2048, 4096, 8192, 16384}, buffer length at least 16384,
threshold in [0, buffer length], converter selector in [0,4], and input sample
rate in [1, 192000] (not the claimed (0, 192000]: values strictly between 0
and 1 are rejected). -/
theorem C6_validation_exact (nc batch thr len conv rate : ℚ) (bt : BufferType) :
    (validate (some nc) batch thr len conv rate bt = .ok () ↔
      (1 ≤ nc ∧ nc ≤ 2 ∧ batch ∈ VALID_BATCH_SIZES ∧ 16384 ≤ len
        ∧ 0 ≤ thr ∧ thr ≤ len ∧ 0 ≤ conv ∧ conv ≤ 4
        ∧ 1 ≤ rate ∧ rate ≤ 192000))
    ∧ (∀ (env : Env) (ncOpt : Option ℚ) (opts : Options) (e : String),
        validate ncOpt (resolveOptions env opts).batchSize
            (resolveOptions env opts).bufferThreshold
            (resolveOptions env opts).bufferLength
            (resolveOptions env opts).converterType
            (resolveOptions env opts).inputSampleRate
            (resolveOptions env opts).bufferType = .error e →
          createNode env ncOpt opts = .error e) := by
  constructor
  · rw [validate]
    constructor
    · intro h
      by_contra hcon
      push_neg at hcon
      split_ifs at h with h1 h2 h3 h4 h5 h6 h7 h8
      push_neg at h1 h2 h3 h4 h5 h6 h7
      rcases bt <;> simp_all
      all_goals linarith
    · intro ⟨ha, hb2, hc2, hd2, he2, hf2, hg2, hh2, hi2, hj2⟩
      rw [if_neg (by push_neg; exact ⟨ha, hb2⟩), if_neg (by simpa using hc2),
        if_neg (by push_neg; exact hd2), if_neg (by push_neg; exact he2),
        if_neg (by push_neg; exact hf2), if_neg (by push_neg; exact ⟨hg2, hh2⟩),
        if_neg (by push_neg; exact ⟨hi2, hj2⟩)]
      rcases bt <;> simp
  · intro env ncOpt opts e herr
    rw [createNode, herr]

/-- Witness for the amended C6 theorem: a fully in-range configuration passes
validation. -/
theorem C6_witness :
    validate (some 2) 512 4096 192000 2 44100 .ring_buffer = .ok () :=
  (C6_validation_exact 2 512 4096 192000 2 44100 .ring_buffer).1.mpr
    (by norm_num [VALID_BATCH_SIZES])

/-- C7: `setBufferThreshold(t)` raises a validation error if and only if
`t < 0` or `t` exceeds the `bufferLength` capacity hint; the error is
synchronous; on error the stored threshold and the playback state are
unchanged; on success the new threshold takes effect.  Shown for both the
ScriptProcessorBackend (which stores the threshold directly) and the
AudioWorkletBackend (which posts the new threshold to the worklet). -/
theorem C7_set_threshold_validation (b : SPBackend) (w : AudioWorkletBackend)
    (t : ℚ) :
    (((b.setBufferThreshold t).2.isSome) ↔ (t < 0 ∨ (b.bufferLength : ℚ) < t))
    ∧ ((b.setBufferThreshold t).2.isSome → (b.setBufferThreshold t).1 = b)
    ∧ ((b.setBufferThreshold t).2 = none →
        (b.setBufferThreshold t).1 = { b with bufferThreshold := t })
    ∧ ((b.setBufferThreshold t).1.state = b.state)
    ∧ (((w.setBufferThreshold t).2.isSome) ↔ (t < 0 ∨ (w.bufferLength : ℚ) < t))
    ∧ ((w.setBufferThreshold t).2.isSome → (w.setBufferThreshold t).1 = none)
    ∧ ((w.setBufferThreshold t).2 = none → (w.setBufferThreshold t).1 = some t) := by
  rw [SPBackend.setBufferThreshold, AudioWorkletBackend.setBufferThreshold]
  split_ifs with h1 h2 h3 h4 <;> simp_all

/-- Witness for C7: a negative threshold is rejected and leaves the backend
unchanged. -/
theorem C7_witness :
    ((SPBackend.mk 2 512 100 .ready (AudioQueue.mk [] 2 32768 0)).setBufferThreshold
        (-1)).2.isSome :=
  (C7_set_threshold_validation (SPBackend.mk 2 512 100 .ready (AudioQueue.mk [] 2 32768 0))
      (AudioWorkletBackend.mk 2 192000 128 .ready 0) (-1)).1.mpr
    (Or.inl (by norm_num))

/-- C8: After `clearBuffer` the readable count is 0 and all buffered content is
discarded; if the state was Playing at the time of the clear, the next
periodic pull transitions to Starved, emits exactly one Starved notification,
and outputs silence. -/
theorem C8_clear_then_starve (b : SPBackend) (outs : List (List Int))
    (hplaying : b.state = .playing) :
    (b.clearBuffer.buffer.getNReadableSamples = 0)
    ∧ (b.clearBuffer.buffer.queue = [])
    ∧ (∀ c, b.clearBuffer.buffer.content c = [])
    ∧ ((b.clearBuffer.playNext outs).1.state = .starved)
    ∧ ((b.clearBuffer.playNext outs).2.2 = [.starved])
    ∧ ((b.clearBuffer.playNext outs).2.1 =
        outs.map (fun ch => List.replicate ch.length (0 : Int))) := by
  have hup : b.clearBuffer.updateState =
      ({ b.clearBuffer with state := .starved }, [BackendState.starved]) := by
    simp [SPBackend.updateState, SPBackend.clearBuffer, AudioQueue.clear,
      AudioQueue.getNReadableSamples, hplaying]
  refine ⟨rfl, rfl, fun c => rfl, ?_, ?_, ?_⟩ <;>
    simp [SPBackend.playNext, hup, writeSilence]

/-- Witness for C8 at a concrete playing backend holding one stereo frame. -/
theorem C8_witness :
    (((SPBackend.mk 2 4 0 .playing (AudioQueue.mk [[1, 2]] 2 32768 1)).clearBuffer.playNext
        [[9, 9], [9, 9]]).2.1 =
      [[9, 9], [9, 9]].map (fun ch => List.replicate ch.length (0 : Int))) :=
  (C8_clear_then_starve (SPBackend.mk 2 4 0 .playing (AudioQueue.mk [[1, 2]] 2 32768 1))
    [[9, 9], [9, 9]] rfl).2.2.2.2.2

/-- One step of the C9 accounting invariant: any single operation preserves
well-formedness and the channel count, and changes the readable count by
exactly (written - removed). -/
theorem runOp_step (q : AudioQueue) (hq : q.WF) (op : QOp)
    (hop : ∀ d, op = QOp.write d → q.nChannels ∣ d.length) :
    (q.runOp op).WF ∧ (q.runOp op).nChannels = q.nChannels ∧
      (q.runOp op).samplesInQueue + opRemoved q op =
        q.samplesInQueue + opWritten q.nChannels op := by
  cases op with
  | write d =>
      obtain ⟨hw1, hw2, _, hw4, _⟩ := q.write_spec hq d (hop d rfl)
      refine ⟨hw1, hw2, ?_⟩
      simp only [AudioQueue.runOp, opRemoved, opWritten]
      rw [hw4]
      omega
  | read n =>
      obtain ⟨hr1, hr2, _, hr4, _⟩ := q.read_none_spec hq n
      refine ⟨hr1, hr2, ?_⟩
      have hcnt : samplesReadCount q.nChannels q.queue (min n q.samplesInQueue) =
          min n q.samplesInQueue :=
        samplesReadCount_eq q.nChannels q.queue _
          (hq.2.2 ▸ min_le_right n q.samplesInQueue)
      simp only [AudioQueue.runOp, opRemoved, opWritten]
      rw [hr4, hcnt]
      omega
  | clear =>
      obtain ⟨hc1, _, hc3, _, hc5⟩ := q.clear_spec hq
      refine ⟨hc5, hc3, ?_⟩
      simp only [AudioQueue.runOp, opRemoved, opWritten]
      rw [hc1]
      omega

/-- The C9 accounting invariant along a whole trace. -/
theorem runTrace_inv (ops : List QOp) :
    ∀ (q : AudioQueue), q.WF → (∀ d, QOp.write d ∈ ops → q.nChannels ∣ d.length) →
      ((q.runTrace ops).1.WF)
      ∧ ((q.runTrace ops).1.nChannels = q.nChannels)
      ∧ ((q.runTrace ops).1.samplesInQueue + (q.runTrace ops).2.2 =
          q.samplesInQueue + (q.runTrace ops).2.1) := by
  induction ops with
  | nil => exact fun q hq _ => ⟨hq, rfl, rfl⟩
  | cons op rest ih =>
      intro q hq hops
      have hstep := runOp_step q hq op
        (fun d hd => hops d (hd ▸ List.mem_cons_self _ _))
      have hnext := ih (q.runOp op) hstep.1
        (fun d hd => hstep.2.1 ▸ hops d (List.mem_cons_of_mem _ hd))
      refine ⟨hnext.1, hnext.2.1.trans hstep.2.1, ?_⟩
      show ((q.runOp op).runTrace rest).1.samplesInQueue +
          (opRemoved q op + ((q.runOp op).runTrace rest).2.2) =
        q.samplesInQueue + (opWritten q.nChannels op + ((q.runOp op).runTrace rest).2.1)
      have h1 := hnext.2.2
      have h2 := hstep.2.2
      omega

/-- C9: Along every sequence of write/read/clear operations starting from a
well-formed FifoQueue with interleaved writes, `getNReadableSamples` always
equals the running total of samples written minus samples removed (consumed by
reads or discarded by clears) — hence never exceeds written-minus-read and is
never negative; every read consumes exactly min(n, available) samples (so at
most min(n, available)); the channel count is immutable; and every write
reports didResize = false together with the updated readable length. -/
theorem C9_fifo_invariants (q : AudioQueue) (hq : q.WF) (ops : List QOp)
    (hops : ∀ d, QOp.write d ∈ ops → q.nChannels ∣ d.length) :
    ((q.runTrace ops).1.WF)
    ∧ ((q.runTrace ops).1.nChannels = q.nChannels)
    ∧ ((q.runTrace ops).1.samplesInQueue + (q.runTrace ops).2.2 =
        q.samplesInQueue + (q.runTrace ops).2.1)
    ∧ (∀ n, opRemoved (q.runTrace ops).1 (.read n) =
        min n (q.runTrace ops).1.samplesInQueue)
    ∧ (∀ d, ((q.runTrace ops).1.write d).2 =
        (false, (q.runTrace ops).1.samplesInQueue +
          d.length / (q.runTrace ops).1.nChannels)) := by
  obtain ⟨h1, h2, h3⟩ := runTrace_inv ops q hq hops
  refine ⟨h1, h2, h3, ?_, fun d => rfl⟩
  intro n
  rw [opRemoved]
  exact samplesReadCount_eq _ _ _ (h1.2.2 ▸ min_le_right n _)

/-- Witness for C9: write one stereo chunk of two frames, read one frame,
clear, on an initially empty stereo queue. -/
theorem C9_witness :
    (((AudioQueue.new 32768 2).runTrace
          [QOp.write [1, 2, 3, 4], QOp.read 1, QOp.clear]).1.samplesInQueue +
        ((AudioQueue.new 32768 2).runTrace
          [QOp.write [1, 2, 3, 4], QOp.read 1, QOp.clear]).2.2 =
      (AudioQueue.new 32768 2).samplesInQueue +
        ((AudioQueue.new 32768 2).runTrace
          [QOp.write [1, 2, 3, 4], QOp.read 1, QOp.clear]).2.1) :=
  (C9_fifo_invariants (AudioQueue.new 32768 2) (by decide)
    [QOp.write [1, 2, 3, 4], QOp.read 1, QOp.clear]
    (by
      intro d hd
      simp only [List.mem_cons, List.not_mem_nil, or_false] at hd
      rcases hd with hd | hd | hd
      · injection hd with h
        subst h
        decide
      · exact QOp.noConfusion hd
      · exact QOp.noConfusion hd)).2.2.1

/-- C10: On a ScriptProcessorBackend built with the fifo_queue buffer, the
`bufferLength` FeederNode uses as the capacity denominator is the queue's
current readable sample count, so `getBufferHealth` returns 1 whenever the
buffer is non-empty and NaN (0/0) whenever it is empty, rather than a fill
ratio against a fixed capacity. -/
theorem C10_sp_fifo_health (b : SPBackend) :
    (FeederNode.bufferLength ⟨.sp b⟩ = b.buffer.getNReadableSamples)
    ∧ (FeederNode.getBufferHealth ⟨.sp b⟩ =
        if b.buffer.samplesInQueue = 0 then ExtQ.nan else ExtQ.fin 1) := by
  refine ⟨rfl, ?_⟩
  by_cases h : b.buffer.samplesInQueue = 0
  · simp [FeederNode.getBufferHealth, FeederNode.getCurrentBufferFill,
      FeederNode.bufferLength, Backend.getCurrentBufferFill, Backend.bufferLength,
      SPBackend.getCurrentBufferFill, SPBackend.bufferLength,
      AudioQueue.getNReadableSamples, AudioQueue.bufferLength, h, jsDiv, jsMax, jsMin]
  · have hne : ((b.buffer.samplesInQueue : ℚ)) ≠ 0 := by exact_mod_cast h
    simp only [FeederNode.getBufferHealth, FeederNode.getCurrentBufferFill,
      FeederNode.bufferLength, Backend.getCurrentBufferFill, Backend.bufferLength,
      SPBackend.getCurrentBufferFill, SPBackend.bufferLength,
      AudioQueue.getNReadableSamples, AudioQueue.bufferLength, if_neg h, jsDiv,
      if_neg hne, div_self hne, jsMax, jsMin]
    norm_num
